import Mathlib

/-!
# Package `auth`: credential store, session authority and authorization gate

A shallow embedding of `lib.go` and `apigen.go`.

* Go strings are Lean `String`s; `strings.Contains` is list containment on the
  characters (for well-formed UTF-8 this coincides with Go's byte-wise test).
* A Go `error` result is an `Option Error` (`none` is `nil`); functions that
  return `(value, err)` return a pair.
* The process-wide handles `db`, `cfg` and `perms` are passed explicitly; every
  function that writes to the database returns the new database state.
* The database behind `gorm.DB` is a record of tables.  Each table is the list
  of its rows in primary-key order (the order in which the rows are returned),
  the two `many2many` relations are join tables of id pairs.  The structs of
  `lib.go` carry no uniqueness tag, so only primary keys are unique.
* `bcrypt` and the random token generator are parameters.
-/

namespace auth

/-! ## Errors -/

/-- The error values that the functions of the package can return. -/
inductive Error where
  /-- `gorm.ErrRecordNotFound`, returned by `First` when no row matches. -/
  | ErrRecordNotFound
  /-- `bcrypt.ErrHashTooShort`. -/
  | ErrHashTooShort
  /-- `bcrypt.ErrMismatchedHashAndPassword`. -/
  | ErrMismatchedHashAndPassword
  /-- `http.ErrNoCookie`. -/
  | ErrNoCookie
  /-- A primary-key violation reported by the database on `Create`. -/
  | ErrDuplicatedKey
  /-- An error built with `errors.New(fmt.Sprintf(...))`, or any other library error. -/
  | New (msg : String)
deriving DecidableEq, Repr

/-! ## Data model (`lib.go`, lines 18-49) -/

structure Config where
  Dburl : String
  Dbdriver : String
  CookieName : String
deriving DecidableEq, Repr

structure Perm where
  Id : Nat
  Name : String
deriving DecidableEq, Repr

structure Group where
  Id : Nat
  Name : String
  Perms : List Perm
deriving DecidableEq, Repr

structure User where
  Id : Nat
  Username : String
  Enabled : Option Bool
  Name : String
  Email : String
  Hash : String
  Groups : List Group
deriving DecidableEq, Repr

structure Session where
  Id : String
  Perms : String
  Username : String
deriving DecidableEq, Repr

/-- The zero value `&User{}`. -/
def User.zero : User :=
  { Id := 0, Username := "", Enabled := none, Name := "", Email := "", Hash := "", Groups := [] }

/-- The zero value `&Session{}`. -/
def Session.zero : Session := { Id := "", Perms := "", Username := "" }

/-- `func (s *Session) HasPerm(p string) bool`:
`strings.Contains(s.Perms, "|"+p+"|")`. -/
def Session.HasPerm (s : Session) (p : String) : Bool :=
  decide (("|" ++ p ++ "|").data <:+: s.Perms.data)

/-! ## The database -/

/-- A row of table `users` (the scalar columns of `User`). -/
structure UserRow where
  Id : Nat
  Username : String
  Enabled : Option Bool
  Name : String
  Email : String
  Hash : String
deriving DecidableEq, Repr

/-- A row of table `groups`. -/
structure GroupRow where
  Id : Nat
  Name : String
deriving DecidableEq, Repr

/-- The state of the database behind the handle `db`: the four tables created by
`AutoMigrate` and the join tables `user_groups` (user id, group id) and
`group_perms` (group id, perm id) of the two `many2many` relations. -/
structure DB where
  users : List UserRow
  groups : List GroupRow
  perms : List Perm
  user_groups : List (Nat × Nat)
  group_perms : List (Nat × Nat)
  sessions : List Session
deriving DecidableEq, Repr

/-- The permissions joined to group `gid` (preload of `Perms`). -/
def DB.groupPerms (db : DB) (gid : Nat) : List Perm :=
  db.perms.filter (fun p => decide ((gid, p.Id) ∈ db.group_perms))

/-- A group row read into a `Group`; `Perms` is filled only when it is preloaded. -/
def DB.loadGroup (db : DB) (nested : Bool) (g : GroupRow) : Group :=
  { Id := g.Id, Name := g.Name, Perms := if nested then db.groupPerms g.Id else [] }

/-- The rows of `groups` joined to user `uid` through `user_groups`. -/
def DB.memberRows (db : DB) (uid : Nat) : List GroupRow :=
  db.groups.filter (fun g => decide ((uid, g.Id) ∈ db.user_groups))

/-- The groups joined to user `uid` (preload of `Groups`, and of `Groups.Perms`
when `nested`). -/
def DB.userGroups (db : DB) (nested : Bool) (uid : Nat) : List Group :=
  (db.memberRows uid).map (db.loadGroup nested)

/-- A user row read into a `User` with `Groups` preloaded. -/
def DB.loadUser (db : DB) (nested : Bool) (r : UserRow) : User :=
  { Id := r.Id, Username := r.Username, Enabled := r.Enabled, Name := r.Name,
    Email := r.Email, Hash := r.Hash, Groups := db.userGroups nested r.Id }

/-- A user row read into a `User` without any preload. -/
def UserRow.toUser (r : UserRow) : User :=
  { Id := r.Id, Username := r.Username, Enabled := r.Enabled, Name := r.Name,
    Email := r.Email, Hash := r.Hash, Groups := [] }

/-- The columns of a `User` written under primary key `id`. -/
def User.row (u : User) (id : Nat) : UserRow :=
  { Id := id, Username := u.Username, Enabled := u.Enabled, Name := u.Name,
    Email := u.Email, Hash := u.Hash }

/-- `db.Preload("Groups").Where(cond).First(u)` (`Groups.Perms` when `nested`):
the first matching row, or `ErrRecordNotFound`. -/
def DB.FirstUser (db : DB) (nested : Bool) (cond : UserRow → Bool) : Except Error User :=
  match db.users.find? cond with
  | some r => .ok (db.loadUser nested r)
  | none => .error .ErrRecordNotFound

/-- `db.Where("name = ?", g).First(gobj)`, with `Preload("Perms")` when `preload`. -/
def DB.FirstGroup (db : DB) (preload : Bool) (name : String) : Except Error Group :=
  match db.groups.find? (fun g => g.Name == name) with
  | some g => .ok (db.loadGroup preload g)
  | none => .error .ErrRecordNotFound

/-- `db.Where("username = ?", u).Find(uo)`: scans the first matching row into
`uo` when there is one; unlike `First`, a miss is no error and leaves `uo` as
it was. -/
def DB.FindUser (db : DB) (username : String) (uo : User) : User :=
  match db.users.find? (fun r => r.Username == username) with
  | some r => r.toUser
  | none => uo

/-- The key the database assigns to a row inserted with a zero primary key: the
successor of the largest key in the table. -/
def DB.nextUserId (db : DB) : Nat :=
  (db.users.map (fun r => r.Id)).foldl max 0 + 1

/-- The join rows `Save` writes for `uid`: one per group of the value that is
not joined yet (`ON CONFLICT DO NOTHING`). -/
def DB.newJoins (db : DB) (uid : Nat) (gs : List Group) : List (Nat × Nat) :=
  (gs.map (fun g => (uid, g.Id))).filter (fun j => decide (j ∉ db.user_groups))

/-- `db.Save(u)` on a `User`: with a zero primary key the value is inserted
under a fresh key; otherwise all columns of the row with that key are updated
(and the row is inserted if there is none).  The groups of the value were read
from the database, so the upsert of their rows changes nothing and only the
join rows are added. -/
def DB.SaveUser (db : DB) (u : User) : DB :=
  if u.Id = 0 then
    { db with users := db.users ++ [u.row db.nextUserId],
              user_groups := db.user_groups ++ db.newJoins db.nextUserId u.Groups }
  else if db.users.any (fun r => r.Id == u.Id) then
    { db with users := db.users.map (fun r => if r.Id = u.Id then u.row u.Id else r),
              user_groups := db.user_groups ++ db.newJoins u.Id u.Groups }
  else
    { db with users := db.users ++ [u.row u.Id],
              user_groups := db.user_groups ++ db.newJoins u.Id u.Groups }

/-- `db.Model(uobj).Association("Groups").Delete(v)`: removes the join row
between the user and the group. -/
def DB.DeleteUserGroup (db : DB) (uid gid : Nat) : DB :=
  { db with user_groups := db.user_groups.filter (fun j => decide (j ≠ (uid, gid))) }

/-- `db.Model(gobj).Association("Perms").Delete(v)`: removes the join row
between the group and the permission. -/
def DB.DeleteGroupPerm (db : DB) (gid pid : Nat) : DB :=
  { db with group_perms := db.group_perms.filter (fun j => decide (j ≠ (gid, pid))) }

/-- `db.Create(&s)` on a `Session`: the token is the primary key. -/
def DB.CreateSession (db : DB) (s : Session) : Except Error DB :=
  if db.sessions.any (fun x => x.Id == s.Id) then .error .ErrDuplicatedKey
  else .ok { db with sessions := db.sessions ++ [s] }

/-! ## `golang.org/x/crypto/bcrypt` -/

/-- The two operations of `bcrypt` that the package calls.  `compare` is the
outcome of `CompareHashAndPassword` on a hash that is long enough to be
parsed. -/
structure Bcrypt where
  GenerateFromPassword : String → Except Error String
  compare : String → String → Option Error

/-- The library constant `minHashSize`. -/
def minHashSize : Nat := 59

/-- `bcrypt.CompareHashAndPassword`: a hash shorter than `minHashSize` bytes is
rejected with `ErrHashTooShort` before anything is compared. -/
def Bcrypt.CompareHashAndPassword (b : Bcrypt) (hash password : String) : Option Error :=
  if hash.utf8ByteSize < minHashSize then some .ErrHashTooShort else b.compare hash password

/-! ## Identity manager (`lib.go`, lines 165-282) -/

/-- `func SetUserPass(u string, p string) (err error)`. -/
def SetUserPass (b : Bcrypt) (db : DB) (u p : String) : DB × Option Error :=
  let uo := db.FindUser u User.zero
  match b.GenerateFromPassword p with
  | .error err => (db, some err)
  | .ok hash => (db.SaveUser { uo with Hash := hash }, none)

/-- `func AddUserToGroup(u string, g string) (err error)`. -/
def AddUserToGroup (db : DB) (u g : String) : DB × Option Error :=
  match db.FirstUser false (fun r => r.Username == u) with
  | .error err => (db, some err)
  | .ok uobj =>
    if uobj.Groups.any (fun v => v.Name == g) then
      (db, some (.New ("User " ++ u ++ " already assigned to group " ++ g)))
    else
      match db.FirstGroup false g with
      | .error err => (db, some err)
      | .ok gobj => (db.SaveUser { uobj with Groups := uobj.Groups ++ [gobj] }, none)

/-- `func RemoveUserFromGroup(u string, g string) (err error)`. -/
def RemoveUserFromGroup (db : DB) (u g : String) : DB × Option Error :=
  match db.FirstUser false (fun r => r.Username == u) with
  | .error err => (db, some err)
  | .ok uobj =>
    match uobj.Groups.find? (fun v => v.Name == g) with
    | some v => (db.DeleteUserGroup uobj.Id v.Id, none)
    | none => (db, none)

/-- `func RemovePermFromGroup(g string, p string) (err error)`.  The loop
compares each permission name with `g`; `p` is not read. -/
def RemovePermFromGroup (db : DB) (g _p : String) : DB × Option Error :=
  match db.FirstGroup true g with
  | .error err => (db, some err)
  | .ok gobj =>
    match gobj.Perms.find? (fun v => v.Name == g) with
    | some v => (db.DeleteGroupPerm gobj.Id v.Id, none)
    | none => (db, none)

/-! ## Session authority (`lib.go`, lines 284-313) -/

/-- The two loops of `Auth` that write `fmt.Sprintf("|%s|", p.Name)` to the
string builder, group by group and permission by permission. -/
def flattenPerms (groups : List Group) : String :=
  groups.foldl (fun sb g => g.Perms.foldl (fun sb p => sb ++ ("|" ++ p.Name ++ "|")) sb) ""

/-- The session `Auth` fills in for the loaded user `u` and the token `token`. -/
def newSession (u : User) (token : String) : Session :=
  { Id := token, Username := u.Username, Perms := flattenPerms u.Groups }

/-- `func Auth(username, password string) (sessid string, err error)`; `token`
is the value of `random.StringUpperAndNumber(32)`.  The result of the lookup is
not checked: on a miss `u` stays the zero user. -/
def Auth (b : Bcrypt) (db : DB) (token username password : String) :
    DB × String × Option Error :=
  let u :=
    match db.FirstUser true (fun r => r.Username == username && r.Enabled == some true) with
    | .ok u => u
    | .error _ => User.zero
  match b.CompareHashAndPassword u.Hash password with
  | some err => (db, "", some err)
  | none =>
    match db.CreateSession (newSession u token) with
    | .error err => (db, "", some err)
    | .ok db' => (db', token, none)

/-- `func Sess(id string) (ret *Session, err error)`. -/
def Sess (db : DB) (id : String) : Session × Option Error :=
  match db.sessions.find? (fun s => s.Id == id) with
  | some s => (s, none)
  | none => (Session.zero, some .ErrRecordNotFound)

/-! ## Authorization gate (`apigen.go`, lines 9-20; `lib.go`, lines 315-338) -/

/-- The part of `http.Request` that the gate reads. -/
structure Request where
  Method : String
  Path : String
  Cookies : List (String × String)
deriving DecidableEq, Repr

/-- `func (r *Request) Cookie(name string) (*Cookie, error)`: the value of the
first cookie of that name, or `ErrNoCookie`. -/
def Request.Cookie (r : Request) (name : String) : Except Error String :=
  if name = "" then .error .ErrNoCookie
  else
    match r.Cookies.find? (fun c => c.1 == name) with
    | some c => .ok c.2
    | none => .error .ErrNoCookie

/-- The part of `gin.Context` that the gate reads and writes: the request, the
key/value store, the response status once written, the errors attached, whether
the handler chain was aborted, and whether `Next` was called. -/
structure Context where
  Request : Request
  Keys : List (String × Session)
  Status : Option Nat
  Errors : List Error
  Aborted : Bool
  NextCalled : Bool
deriving DecidableEq, Repr

def StatusForbidden : Nat := 403

/-- `ctx.AbortWithStatus(code)`. -/
def Context.AbortWithStatus (c : Context) (code : Nat) : Context :=
  { c with Status := some code, Aborted := true }

/-- `ctx.AbortWithError(code, err)`. -/
def Context.AbortWithError (c : Context) (code : Nat) (err : Error) : Context :=
  { c.AbortWithStatus code with Errors := c.Errors ++ [err] }

/-- `ctx.Set(key, value)`. -/
def Context.Set (c : Context) (key : String) (value : Session) : Context :=
  { c with Keys := (key, value) :: c.Keys.filter (fun kv => kv.1 != key) }

/-- `ctx.Get(key)`. -/
def Context.Get (c : Context) (key : String) : Option Session :=
  (c.Keys.find? (fun kv => kv.1 == key)).map (fun kv => kv.2)

/-- `ctx.Next()`: hands over to the remaining handlers. -/
def Context.Next (c : Context) : Context :=
  { c with NextCalled := true }

/-- `func GetPerm(c *gin.Context) string` over the table `perms`. -/
def GetPerm (perms : List (String × String)) (c : Context) : String :=
  match perms.find? (fun kv => kv.1 == c.Request.Method ++ "_" ++ c.Request.Path) with
  | some kv => kv.2
  | none => ""

/-- `func MDSession(ctx *gin.Context)`. -/
def MDSession (cfg : Config) (perms : List (String × String)) (db : DB) (ctx : Context) :
    Context :=
  let cookie := ctx.Request.Cookie cfg.CookieName
  let perm := GetPerm perms ctx
  if perm != "" then
    match cookie with
    | .error err => ctx.AbortWithError StatusForbidden err
    | .ok value =>
      match Sess db value with
      | (_, some err) => ctx.AbortWithError StatusForbidden err
      | (sess, none) =>
        if sess.HasPerm perm then (ctx.Set "SESSION" sess).Next
        else ctx.AbortWithStatus StatusForbidden
  else ctx

/-- A request proceeds to the remaining handlers unless the chain was aborted. -/
def Context.proceeds (c : Context) : Bool := !c.Aborted

/-! ## Vocabulary of the statements -/

/-- The names of the permissions reachable through `groups`, group by group and
permission by permission, duplicates kept. -/
def permNames (groups : List Group) : List String :=
  groups.flatMap (fun g => g.Perms.map (fun p => p.Name))

/-- A string without the delimiter `|`. -/
def barFree (name : String) : Prop := '|' ∉ name.data

instance (name : String) : Decidable (barFree name) := by
  unfold barFree; infer_instance

/-- The characters of the concatenation of `"|" + n + "|"` over the names `L`. -/
def wrappedChars (L : List (List Char)) : List Char :=
  L.flatMap (fun n => '|' :: n ++ ['|'])

/-! ## Sample data -/

/-- A user with one group holding the permissions `read` and `write`. -/
def userReadWrite : User :=
  { User.zero with
    Id := 1, Username := "usera", Enabled := some true,
    Groups := [{ Id := 1, Name := "groupa",
                 Perms := [{ Id := 1, Name := "read" }, { Id := 2, Name := "write" }] }] }

/-- A user with one group holding a permission whose name contains the delimiter. -/
def userBarName : User :=
  { User.zero with
    Id := 1, Username := "usera", Enabled := some true,
    Groups := [{ Id := 1, Name := "groupa", Perms := [{ Id := 1, Name := "x|read" }] }] }

/-- A group holding only `read`. -/
def groupRead : Group := { Id := 1, Name := "groupa", Perms := [{ Id := 1, Name := "read" }] }

/-- A group holding only `read_all`. -/
def groupReadAll : Group :=
  { Id := 1, Name := "groupa", Perms := [{ Id := 1, Name := "read_all" }] }

/-- A 60-character string in the format of a bcrypt hash. -/
def sampleHash : String := "$2a$12$R9h/cIPz0gi.URNNX3kh2OPST9/PgBkqquzi.Ss7KIUgO2t0jWMUW"

/-- A table standing for `bcrypt` in the concrete scenarios: `sampleHash` is the
hash of the password `abc123xyz` and of no other password. -/
def sampleBcrypt : Bcrypt :=
  { GenerateFromPassword := fun p =>
      if p = "abc123xyz" then .ok sampleHash else .error (.New "no hash on record"),
    compare := fun hash p =>
      if hash = sampleHash ∧ p = "abc123xyz" then none
      else some .ErrMismatchedHashAndPassword }

/-- A database with the enabled user `usera` (password `abc123xyz`, member of
`groupa` holding `perma`) and the disabled user `userb` with the same hash. -/
def sampleDB : DB :=
  { users := [{ Id := 1, Username := "usera", Enabled := some true, Name := "User A",
                Email := "mail@mail.com", Hash := sampleHash },
              { Id := 2, Username := "userb", Enabled := some false, Name := "User B",
                Email := "mail@mail.com", Hash := sampleHash }],
    groups := [{ Id := 1, Name := "groupa" }],
    perms := [{ Id := 1, Name := "perma" }],
    user_groups := [(1, 1)],
    group_perms := [(1, 1)],
    sessions := [] }

/-- A database with one session, granting `perma`. -/
def sessionDB : DB :=
  { sampleDB with sessions := [{ Id := "T", Perms := "|perma|", Username := "usera" }] }

/-- The route table of the scenarios: `GET /data` requires `perma`. -/
def samplePerms : List (String × String) := [("GET_/data", "perma")]

/-- The configuration of the scenarios. -/
def sampleConfig : Config := { Dburl := "test.db", Dbdriver := "sqlite", CookieName := "SID" }

/-- A fresh context for a request of `GET /data` carrying the session cookie `T`. -/
def sampleContext : Context :=
  { Request := { Method := "GET", Path := "/data", Cookies := [("SID", "T")] },
    Keys := [], Status := none, Errors := [], Aborted := false, NextCalled := false }

/-- A database in which the group `admin` holds the permissions `admin` and
`read`. -/
def adminDB : DB :=
  { users := [], groups := [{ Id := 1, Name := "admin" }],
    perms := [{ Id := 1, Name := "admin" }, { Id := 2, Name := "read" }],
    user_groups := [], group_perms := [(1, 1), (1, 2)], sessions := [] }

/-- The scenario of `TestAddRemoveGroup`: `usera2` is enabled, has the password
`abc123xyz`, and is joined to `groupa2` holding `perma2` and to `groupb2` holding
`permb2`. -/
def twoGroupDB : DB :=
  { users := [{ Id := 1, Username := "usera2", Enabled := some true, Name := "User A2",
                Email := "mail@mail.com", Hash := sampleHash }],
    groups := [{ Id := 1, Name := "groupa2" }, { Id := 2, Name := "groupb2" }],
    perms := [{ Id := 1, Name := "perma2" }, { Id := 2, Name := "permb2" }],
    user_groups := [(1, 1), (1, 2)],
    group_perms := [(1, 1), (2, 2)],
    sessions := [] }

/-! ## Lemmas on the delimiter discipline -/

theorem wrappedChars_cons (n : List Char) (L : List (List Char)) :
    wrappedChars (n :: L) = '|' :: (n ++ '|' :: wrappedChars L) := by
  simp [wrappedChars]

theorem prefix_eq_of_bar_free (q n rest : List Char) (hq : '|' ∉ q) (hn : '|' ∉ n)
    (h : q ++ ['|'] <+: n ++ '|' :: rest) : q = n := by
  induction q generalizing n with
  | nil =>
    cases n with
    | nil => rfl
    | cons c n' =>
      simp only [List.nil_append, List.cons_append, List.cons_prefix_cons] at h
      exact absurd h.1 (by intro hc; exact hn (by simp [← hc]))
  | cons a q' ih =>
    cases n with
    | nil =>
      simp only [List.cons_append, List.nil_append, List.cons_prefix_cons] at h
      exact absurd h.1 (by intro hc; exact hq (by simp [hc]))
    | cons c n' =>
      simp only [List.cons_append, List.cons_prefix_cons] at h
      have hq' : '|' ∉ q' := fun hm => hq (List.mem_cons_of_mem _ hm)
      have hn' : '|' ∉ n' := fun hm => hn (List.mem_cons_of_mem _ hm)
      rw [h.1, ih n' hq' hn' h.2]

theorem not_prefix_wrapped (q : List Char) (L : List (List Char)) (hne : q ≠ [])
    (hq : '|' ∉ q) : ¬ (q ++ ['|'] <+: wrappedChars L) := by
  intro h
  cases q with
  | nil => exact hne rfl
  | cons a q' =>
    cases L with
    | nil => simp [wrappedChars] at h
    | cons n L' =>
      rw [wrappedChars_cons] at h
      simp only [List.cons_append, List.cons_prefix_cons] at h
      exact hq (by simp [h.1])

theorem mem_of_tail_wrapped (q w : List Char) (L : List (List Char)) (hne : q ≠ [])
    (hq : '|' ∉ q) (hw : '|' ∉ w)
    (ih : '|' :: (q ++ ['|']) <:+: wrappedChars L → q ∈ L)
    (h : '|' :: (q ++ ['|']) <:+: w ++ '|' :: wrappedChars L) : q ∈ L := by
  induction w with
  | nil =>
    simp only [List.nil_append] at h
    rcases List.infix_cons_iff.mp h with hp | hi
    · simp only [List.cons_prefix_cons, true_and] at hp
      exact absurd hp (not_prefix_wrapped q L hne hq)
    · exact ih hi
  | cons c w' ihw =>
    have hw' : '|' ∉ w' := fun hm => hw (List.mem_cons_of_mem _ hm)
    simp only [List.cons_append] at h
    rcases List.infix_cons_iff.mp h with hp | hi
    · simp only [List.cons_prefix_cons] at hp
      exact absurd hp.1 (by intro hc; exact hw (by simp [← hc]))
    · exact ihw hw' hi

theorem mem_of_wrapped (q : List Char) (L : List (List Char)) (hne : q ≠ [])
    (hq : '|' ∉ q) (hL : ∀ n ∈ L, '|' ∉ n)
    (h : '|' :: (q ++ ['|']) <:+: wrappedChars L) : q ∈ L := by
  induction L with
  | nil => simp [wrappedChars] at h
  | cons n L' ih =>
    have hn : '|' ∉ n := hL n (List.mem_cons_self _ _)
    have hL' : ∀ m ∈ L', '|' ∉ m := fun m hm => hL m (List.mem_cons_of_mem _ hm)
    rw [wrappedChars_cons] at h
    rcases List.infix_cons_iff.mp h with hp | hi
    · simp only [List.cons_prefix_cons, true_and] at hp
      rw [prefix_eq_of_bar_free q n _ hq hn hp]
      exact List.mem_cons_self _ _
    · exact List.mem_cons_of_mem _ (mem_of_tail_wrapped q n L' hne hq hn (ih hL') hi)

theorem wrapped_of_mem (q : List Char) (L : List (List Char)) (h : q ∈ L) :
    '|' :: (q ++ ['|']) <:+: wrappedChars L := by
  obtain ⟨l₁, l₂, rfl⟩ := List.append_of_mem h
  refine ⟨wrappedChars l₁, wrappedChars l₂, ?_⟩
  simp [wrappedChars]

/-! ## The flattened permission string -/

theorem foldl_perms_data (ps : List Perm) (sb : String) :
    (ps.foldl (fun sb p => sb ++ ("|" ++ p.Name ++ "|")) sb).data
      = sb.data ++ wrappedChars (ps.map (fun p => p.Name.data)) := by
  induction ps generalizing sb with
  | nil => simp [wrappedChars]
  | cons p ps ih =>
    simp only [List.foldl_cons, List.map_cons, wrappedChars_cons]
    rw [ih]
    simp [String.data_append]

theorem foldl_groups_data (gs : List Group) (sb : String) :
    (gs.foldl (fun sb g => g.Perms.foldl (fun sb p => sb ++ ("|" ++ p.Name ++ "|")) sb) sb).data
      = sb.data ++ wrappedChars ((permNames gs).map String.data) := by
  induction gs generalizing sb with
  | nil => simp [wrappedChars, permNames]
  | cons g gs ih =>
    simp only [List.foldl_cons]
    rw [ih, foldl_perms_data]
    simp [permNames, wrappedChars, List.flatMap_append, List.flatMap_map, List.append_assoc]

theorem flattenPerms_data (gs : List Group) :
    (flattenPerms gs).data = wrappedChars ((permNames gs).map String.data) := by
  unfold flattenPerms
  rw [foldl_groups_data]
  simp

theorem hasPerm_flatten_iff_wrapped (id un : String) (gs : List Group) (p : String) :
    Session.HasPerm { Id := id, Perms := flattenPerms gs, Username := un } p = true
      ↔ '|' :: (p.data ++ ['|']) <:+: wrappedChars ((permNames gs).map String.data) := by
  simp [Session.HasPerm, flattenPerms_data, String.data_append]

theorem data_mem_map_iff (p : String) (L : List String) :
    p.data ∈ L.map String.data ↔ p ∈ L := by
  constructor
  · intro h
    obtain ⟨n, hn, he⟩ := List.mem_map.mp h
    have : n = p := String.ext he
    exact this ▸ hn
  · intro h
    exact List.mem_map.mpr ⟨p, h, rfl⟩

/-! ## Permission checks on the session that `Auth` builds -/

theorem HasPerm_of_held (u : User) (token p : String) (h : p ∈ permNames u.Groups) :
    (newSession u token).HasPerm p = true := by
  unfold newSession
  rw [hasPerm_flatten_iff_wrapped]
  exact wrapped_of_mem _ _ ((data_mem_map_iff p _).mpr h)

theorem held_of_HasPerm (id un : String) (groups : List Group) (p : String)
    (hL : ∀ n ∈ permNames groups, barFree n) (hne : p ≠ "") (hp : barFree p)
    (h : Session.HasPerm { Id := id, Perms := flattenPerms groups, Username := un } p = true) :
    p ∈ permNames groups := by
  rw [hasPerm_flatten_iff_wrapped] at h
  have hne' : p.data ≠ [] := fun he => hne (String.ext he)
  have hL' : ∀ n ∈ (permNames groups).map String.data, '|' ∉ n := by
    intro n hn
    obtain ⟨m, hm, rfl⟩ := List.mem_map.mp hn
    exact hL m hm
  exact (data_mem_map_iff p _).mp (mem_of_wrapped p.data _ hne' hp hL' h)

/-- C2 (as stated) fails: on the session built for a user holding `read` and
`write` the check of the empty name and the check of `read||write` succeed, and
on the session built for a user holding only `x|read` the check of `read`
succeeds, although none of the three names is held. -/
theorem HasPerm_iff_held_fails :
    ((newSession userReadWrite "T").HasPerm "" = true ∧ "" ∉ permNames userReadWrite.Groups) ∧
    ((newSession userReadWrite "T").HasPerm "read||write" = true
      ∧ "read||write" ∉ permNames userReadWrite.Groups) ∧
    ((newSession userBarName "T").HasPerm "read" = true
      ∧ "read" ∉ permNames userBarName.Groups) := by
  decide

/-- C2 (amended): on the session that `Auth` builds for a user, every permission
name held by one of the user's groups passes `HasPerm`; and when no held name
contains `|` and `p` is non-empty and contains no `|`, `HasPerm p` is true if
and only if `p` is the name of a permission held by one of the groups. -/
theorem HasPerm_iff_held (u : User) (token p : String) :
    (p ∈ permNames u.Groups → (newSession u token).HasPerm p = true) ∧
    ((∀ n ∈ permNames u.Groups, barFree n) → p ≠ "" → barFree p →
      ((newSession u token).HasPerm p = true ↔ p ∈ permNames u.Groups)) :=
  ⟨HasPerm_of_held u token p, fun hL hne hp =>
    ⟨held_of_HasPerm token u.Username u.Groups p hL hne hp, HasPerm_of_held u token p⟩⟩

/-- Witness for C2: the user holding `read` and `write`, checked for `read`. -/
theorem HasPerm_iff_held_witness :
    (newSession userReadWrite "T").HasPerm "read" = true
      ↔ "read" ∈ permNames userReadWrite.Groups :=
  (HasPerm_iff_held userReadWrite "T" "read").2 (by decide) (by decide) (by decide)

/-- C3: for groups whose permission names `L = permNames groups` contain no `|`
and a non-empty name `q` without `|` that is not in `L`, `HasPerm q` is false on
the session whose `Perms` is the flattening `Auth` computes for these groups
(the concatenation of `"|" + n + "|"` for `n` in `L`). -/
theorem HasPerm_false_of_not_granted (id un : String) (groups : List Group) (q : String)
    (hL : ∀ n ∈ permNames groups, barFree n) (hne : q ≠ "") (hq : barFree q)
    (hnot : q ∉ permNames groups) :
    Session.HasPerm { Id := id, Perms := flattenPerms groups, Username := un } q = false := by
  rw [Bool.eq_false_iff]
  exact fun h => hnot (held_of_HasPerm id un groups q hL hne hq h)

/-- Witness for C3: granting `read` does not satisfy `read_all`, and granting
`read_all` does not satisfy `read`. -/
theorem HasPerm_false_of_not_granted_witness :
    Session.HasPerm ⟨"T", flattenPerms [groupRead], "usera"⟩ "read_all" = false ∧
    Session.HasPerm ⟨"T", flattenPerms [groupReadAll], "usera"⟩ "read" = false :=
  ⟨HasPerm_false_of_not_granted "T" "usera" [groupRead] "read_all" (by decide) (by decide)
     (by decide) (by decide),
   HasPerm_false_of_not_granted "T" "usera" [groupReadAll] "read" (by decide) (by decide)
     (by decide) (by decide)⟩

/-! ## `Auth` and `Sess` -/

theorem join_data_aux (l : List String) (init : String) :
    (l.foldl (fun r x => r ++ x) init).data = init.data ++ l.flatMap String.data := by
  induction l generalizing init with
  | nil => simp
  | cons x l ih => simp [List.foldl_cons, ih, String.data_append]

theorem flattenPerms_eq_join (gs : List Group) :
    flattenPerms gs = String.join ((permNames gs).map (fun n => "|" ++ n ++ "|")) := by
  apply String.ext
  rw [flattenPerms_data]
  unfold String.join
  rw [join_data_aux]
  simp [wrappedChars, List.flatMap_map, String.data_append]

theorem find_session_append (ss : List Session) (s : Session)
    (hfresh : ∀ x ∈ ss, x.Id ≠ s.Id) :
    (ss ++ [s]).find? (fun x => x.Id == s.Id) = some s := by
  have hnone : ss.find? (fun x => x.Id == s.Id) = none := by
    rw [List.find?_eq_none]
    intro x hx
    simpa using hfresh x hx
  simp [List.find?_append, hnone]

theorem any_session_false (ss : List Session) (id : String)
    (hfresh : ∀ x ∈ ss, x.Id ≠ id) : ss.any (fun x => x.Id == id) = false := by
  rw [Bool.eq_false_iff]
  intro h
  obtain ⟨x, hx, he⟩ := List.any_eq_true.mp h
  exact hfresh x hx (by simpa using he)

/-- What `Auth` does once the lookup has returned row `r` and the password
verifies against its hash: it appends the new session and returns the token. -/
theorem Auth_of_verified (b : Bcrypt) (db : DB) (token u pw : String) (r : UserRow)
    (hr : db.users.find? (fun r => r.Username == u && r.Enabled == some true) = some r)
    (hpw : b.CompareHashAndPassword r.Hash pw = none)
    (hfresh : ∀ s ∈ db.sessions, s.Id ≠ token) :
    Auth b db token u pw
      = ({ db with sessions := db.sessions ++ [newSession (db.loadUser true r) token] },
         token, none) := by
  have hany := any_session_false db.sessions token hfresh
  simp only [Auth, DB.FirstUser, hr, DB.loadUser, hpw, DB.CreateSession, newSession, hany]
  simp

/-- What `Auth` does when the lookup finds no enabled user of that name. -/
theorem Auth_of_missing (b : Bcrypt) (db : DB) (token u pw : String)
    (h : ∀ r ∈ db.users, ¬ (r.Username = u ∧ r.Enabled = some true)) :
    Auth b db token u pw = (db, "", some .ErrHashTooShort) := by
  have hnone : db.users.find? (fun r => r.Username == u && r.Enabled == some true) = none := by
    rw [List.find?_eq_none]
    intro r hr
    simpa using h r hr
  have hz : b.CompareHashAndPassword User.zero.Hash pw = some .ErrHashTooShort := by
    simp [Bcrypt.CompareHashAndPassword, User.zero, minHashSize, String.utf8ByteSize,
      String.utf8ByteSize.go]
  simp only [Auth, DB.FirstUser, hnone, hz]

/-- C1: when the lookup of `Auth` returns the enabled row `r` named `u`, `pw`
verifies against its hash and the token is not yet a session id, `Auth` returns
no error and the token, and `Sess` on the resulting store returns, without
error, a session whose `Username` is `u` and whose `Perms` is the concatenation
of `"|" + name + "|"` over the groups of the user and the permissions of each
group in iteration order; `HasPerm` is true for every permission of every
group. -/
theorem Auth_then_Sess (b : Bcrypt) (db : DB) (token u pw : String) (r : UserRow)
    (hr : db.users.find? (fun r => r.Username == u && r.Enabled == some true) = some r)
    (hpw : b.CompareHashAndPassword r.Hash pw = none)
    (hfresh : ∀ s ∈ db.sessions, s.Id ≠ token) :
    (Auth b db token u pw).2.2 = none ∧
    (Auth b db token u pw).2.1 = token ∧
    (Sess (Auth b db token u pw).1 token).2 = none ∧
    (Sess (Auth b db token u pw).1 token).1.Username = u ∧
    (Sess (Auth b db token u pw).1 token).1.Perms
      = String.join ((permNames (db.loadUser true r).Groups).map (fun n => "|" ++ n ++ "|")) ∧
    ∀ g ∈ (db.loadUser true r).Groups, ∀ p ∈ g.Perms,
      (Sess (Auth b db token u pw).1 token).1.HasPerm p.Name = true := by
  have hname : r.Username = u := by
    have := List.find?_some hr
    simp only [Bool.and_eq_true, beq_iff_eq] at this
    exact this.1
  have hsess : Sess (Auth b db token u pw).1 token
      = (newSession (db.loadUser true r) token, none) := by
    rw [Auth_of_verified b db token u pw r hr hpw hfresh]
    have := find_session_append db.sessions (newSession (db.loadUser true r) token) hfresh
    simp only [newSession] at this
    simp only [Sess, newSession, this]
  rw [hsess, Auth_of_verified b db token u pw r hr hpw hfresh]
  refine ⟨rfl, rfl, rfl, ?_, ?_, ?_⟩
  · simpa [newSession, DB.loadUser] using hname
  · simp only [newSession]
    exact flattenPerms_eq_join _
  · intro g hg p hp
    apply (HasPerm_of_held _ token p.Name)
    simp only [permNames, List.mem_flatMap, List.mem_map]
    exact ⟨g, hg, p, hp, rfl⟩

/-- Witness for C1: `usera` authenticates on the sample database. -/
theorem Auth_then_Sess_witness :
    (Auth sampleBcrypt sampleDB "T" "usera" "abc123xyz").2.2 = none ∧
    (Auth sampleBcrypt sampleDB "T" "usera" "abc123xyz").2.1 = "T" ∧
    (Sess (Auth sampleBcrypt sampleDB "T" "usera" "abc123xyz").1 "T").1.Perms = "|perma|" ∧
    (Sess (Auth sampleBcrypt sampleDB "T" "usera" "abc123xyz").1 "T").1.HasPerm "perma" = true :=
  have h := Auth_then_Sess sampleBcrypt sampleDB "T" "usera" "abc123xyz"
    { Id := 1, Username := "usera", Enabled := some true, Name := "User A",
      Email := "mail@mail.com", Hash := sampleHash }
    (by decide) (by decide) (by decide)
  ⟨h.1, h.2.1, h.2.2.2.2.1.trans (by decide),
   h.2.2.2.2.2 ⟨1, "groupa", [⟨1, "perma"⟩]⟩ (by decide) ⟨1, "perma"⟩ (by decide)⟩

/-- C4: when the store has no user named `u` whose enabled flag is true, `Auth`
returns a non-nil error and the empty token for every password, and the store
(with it the set of session records) is unchanged. -/
theorem Auth_fails_closed (b : Bcrypt) (db : DB) (token u pw : String)
    (h : ∀ r ∈ db.users, ¬ (r.Username = u ∧ r.Enabled = some true)) :
    (Auth b db token u pw).2.2 ≠ none ∧
    (Auth b db token u pw).2.1 = "" ∧
    (Auth b db token u pw).1 = db ∧
    (Auth b db token u pw).1.sessions = db.sessions := by
  rw [Auth_of_missing b db token u pw h]
  simp

/-- Witness for C4: an unknown name and a disabled account, with the empty
password. -/
theorem Auth_fails_closed_witness :
    ((Auth sampleBcrypt sampleDB "T" "ghost" "").2.2 ≠ none ∧
      (Auth sampleBcrypt sampleDB "T" "ghost" "").2.1 = "") ∧
    ((Auth sampleBcrypt sampleDB "T" "userb" "").2.2 ≠ none ∧
      (Auth sampleBcrypt sampleDB "T" "userb" "").2.1 = "") :=
  have hg := Auth_fails_closed sampleBcrypt sampleDB "T" "ghost" "" (by decide)
  have hb := Auth_fails_closed sampleBcrypt sampleDB "T" "userb" "" (by decide)
  ⟨⟨hg.1, hg.2.1⟩, ⟨hb.1, hb.2.1⟩⟩

/-- C5 (as stated) fails: on the sample database a wrong password for the
enabled user `usera` is answered with `ErrMismatchedHashAndPassword`, while the
disabled `userb` and the unknown `ghost` are answered with `ErrHashTooShort`. -/
theorem Auth_errors_differ :
    (Auth sampleBcrypt sampleDB "T" "usera" "wrong").2.2
      = some Error.ErrMismatchedHashAndPassword ∧
    (Auth sampleBcrypt sampleDB "T" "userb" "wrong").2.2 = some Error.ErrHashTooShort ∧
    (Auth sampleBcrypt sampleDB "T" "ghost" "wrong").2.2 = some Error.ErrHashTooShort ∧
    (Auth sampleBcrypt sampleDB "T" "usera" "wrong").2.2
      ≠ (Auth sampleBcrypt sampleDB "T" "ghost" "wrong").2.2 := by
  decide

/-- C5 (amended): a disabled account and a nonexistent username (no enabled
user of that name) get the same error, `ErrHashTooShort`; an enabled user whose
password does not verify gets the error that the comparison with the stored
hash returns.  In all three cases the token is empty and the store unchanged. -/
theorem Auth_failure_errors (b : Bcrypt) (db : DB) (token u pw : String) :
    ((∀ r ∈ db.users, ¬ (r.Username = u ∧ r.Enabled = some true)) →
      Auth b db token u pw = (db, "", some Error.ErrHashTooShort)) ∧
    (∀ (r : UserRow) (err : Error),
      db.users.find? (fun r => r.Username == u && r.Enabled == some true) = some r →
      b.CompareHashAndPassword r.Hash pw = some err →
      Auth b db token u pw = (db, "", some err)) := by
  refine ⟨Auth_of_missing b db token u pw, ?_⟩
  intro r err hr hcmp
  simp only [Auth, DB.FirstUser, hr, DB.loadUser, hcmp]

/-- Witness for C5: the three failures on the sample database. -/
theorem Auth_failure_errors_witness :
    Auth sampleBcrypt sampleDB "T" "ghost" "wrong" = (sampleDB, "", some Error.ErrHashTooShort) ∧
    Auth sampleBcrypt sampleDB "T" "userb" "wrong" = (sampleDB, "", some Error.ErrHashTooShort) ∧
    Auth sampleBcrypt sampleDB "T" "usera" "wrong"
      = (sampleDB, "", some Error.ErrMismatchedHashAndPassword) :=
  ⟨(Auth_failure_errors sampleBcrypt sampleDB "T" "ghost" "wrong").1 (by decide),
   (Auth_failure_errors sampleBcrypt sampleDB "T" "userb" "wrong").1 (by decide),
   (Auth_failure_errors sampleBcrypt sampleDB "T" "usera" "wrong").2
     { Id := 1, Username := "usera", Enabled := some true, Name := "User A",
       Email := "mail@mail.com", Hash := sampleHash }
     Error.ErrMismatchedHashAndPassword (by decide) (by decide)⟩

/-! ## The authorization gate -/

/-- C6: on a context that is not aborted yet, `MDSession` lets the request
proceed if and only if the required permission of the route is empty, or the
session cookie is present, its value resolves through `Sess`, and the session
passes `HasPerm` for the required permission; otherwise the request is aborted
with status 403.  The session is stored under `SESSION` on the allow path that
required a permission, and on no other path are the keys touched. -/
theorem MDSession_gate (cfg : Config) (perms : List (String × String)) (db : DB)
    (ctx : Context) (h0 : ctx.Aborted = false) :
    ((MDSession cfg perms db ctx).proceeds = true ↔
      (GetPerm perms ctx = "" ∨
        ∃ value sess, ctx.Request.Cookie cfg.CookieName = .ok value ∧
          Sess db value = (sess, none) ∧ sess.HasPerm (GetPerm perms ctx) = true)) ∧
    ((MDSession cfg perms db ctx).proceeds = false →
      (MDSession cfg perms db ctx).Aborted = true ∧
      (MDSession cfg perms db ctx).Status = some StatusForbidden) ∧
    (∀ value sess, GetPerm perms ctx ≠ "" →
      ctx.Request.Cookie cfg.CookieName = .ok value → Sess db value = (sess, none) →
      sess.HasPerm (GetPerm perms ctx) = true →
      (MDSession cfg perms db ctx).Get "SESSION" = some sess) ∧
    ((GetPerm perms ctx = "" ∨ (MDSession cfg perms db ctx).proceeds = false) →
      (MDSession cfg perms db ctx).Keys = ctx.Keys) := by
  unfold MDSession
  by_cases hp : GetPerm perms ctx = ""
  · simp [hp, Context.proceeds, h0]
  · have hp' : (GetPerm perms ctx != "") = true := by simpa using hp
    simp only [hp', if_true]
    cases hc : ctx.Request.Cookie cfg.CookieName with
    | error err =>
      simp [hp, Context.proceeds, Context.AbortWithError, Context.AbortWithStatus]
    | ok value =>
      rcases hs : Sess db value with ⟨sess, _ | err⟩
      · by_cases hh : sess.HasPerm (GetPerm perms ctx) = true
        · simp [hp, hh, hs, Context.proceeds, Context.Next, Context.Set, Context.Get, h0]
          intro v s hv hsv _
          subst hv
          rw [hs] at hsv
          exact (Prod.mk.inj hsv).1
        · simp [hp, hh, hs, Context.proceeds, Context.AbortWithStatus]
          intro v s hv hsv hhv
          subst hv
          rw [hs] at hsv
          rw [(Prod.mk.inj hsv).1] at hh
          exact absurd hhv hh
      · simp [hp, hs, Context.proceeds, Context.AbortWithError, Context.AbortWithStatus]
        intro v s hv hsv _
        subst hv
        rw [hs] at hsv
        exact absurd (Prod.mk.inj hsv).2 (by simp)

/-- Witness for C6: the request of `GET /data` with the cookie of a session
that grants `perma` proceeds and finds the session under `SESSION`. -/
theorem MDSession_gate_witness :
    (MDSession sampleConfig samplePerms sessionDB sampleContext).proceeds = true ∧
    (MDSession sampleConfig samplePerms sessionDB sampleContext).Get "SESSION"
      = some { Id := "T", Perms := "|perma|", Username := "usera" } :=
  have h := MDSession_gate sampleConfig samplePerms sessionDB sampleContext (by decide)
  ⟨h.1.mpr (Or.inr ⟨"T", ⟨"T", "|perma|", "usera"⟩, by rfl, by decide, by decide⟩),
   h.2.2.1 "T" ⟨"T", "|perma|", "usera"⟩ (by decide) (by rfl) (by decide) (by decide)⟩

/-! ## Membership edges -/

theorem FirstUser_of_find (db : DB) (nested : Bool) (cond : UserRow → Bool) (r : UserRow)
    (hr : db.users.find? cond = some r) :
    db.FirstUser nested cond = .ok (db.loadUser nested r) := by
  simp only [DB.FirstUser, hr]

theorem find_userGroups (db : DB) (nested : Bool) (uid : Nat) (g : String) :
    (db.userGroups nested uid).find? (fun v => v.Name == g)
      = ((db.memberRows uid).find? (fun x => x.Name == g)).map (db.loadGroup nested) := by
  unfold DB.userGroups
  rw [List.find?_map]
  rfl

theorem any_userGroups (db : DB) (nested : Bool) (uid : Nat) (g : String) :
    (db.userGroups nested uid).any (fun v => v.Name == g)
      = (db.memberRows uid).any (fun x => x.Name == g) := by
  unfold DB.userGroups
  induction db.memberRows uid with
  | nil => rfl
  | cons x xs ih => simp only [List.map_cons, List.any_cons, ih, DB.loadGroup]

/-- C8: for a store in which the lookup by username finds the user `u` (row
`r`): (1) when `u` is joined to a group named `g`, `AddUserToGroup u g` returns
a non-nil error and leaves the store unchanged; (2) when `u` is joined to no
group named `g`, `RemoveUserFromGroup u g` returns no error and leaves the store
unchanged. -/
theorem membership_asymmetry (db : DB) (u g : String) (r : UserRow)
    (hr : db.users.find? (fun r => r.Username == u) = some r) :
    ((∃ x ∈ db.groups, x.Name = g ∧ (r.Id, x.Id) ∈ db.user_groups) →
      (AddUserToGroup db u g).2 ≠ none ∧ (AddUserToGroup db u g).1 = db) ∧
    ((∀ x ∈ db.groups, x.Name = g → (r.Id, x.Id) ∉ db.user_groups) →
      (RemoveUserFromGroup db u g).2 = none ∧ (RemoveUserFromGroup db u g).1 = db) := by
  constructor
  · rintro ⟨x, hx, hname, hjoin⟩
    have hany : (db.userGroups false r.Id).any (fun v => v.Name == g) = true := by
      rw [any_userGroups, List.any_eq_true]
      refine ⟨x, ?_, by simpa using hname⟩
      simp only [DB.memberRows, List.mem_filter, decide_eq_true_eq]
      exact ⟨hx, hjoin⟩
    simp only [AddUserToGroup, FirstUser_of_find db false _ r hr, DB.loadUser, hany, if_true]
    simp
  · intro hno
    have hnone : (db.userGroups false r.Id).find? (fun v => v.Name == g) = none := by
      rw [List.find?_eq_none]
      intro v hv
      obtain ⟨x, hx, rfl⟩ := List.mem_map.mp hv
      simp only [DB.memberRows, List.mem_filter, decide_eq_true_eq] at hx
      simp only [DB.loadGroup, beq_iff_eq]
      exact fun hname => hno x hx.1 hname hx.2
    simp only [RemoveUserFromGroup, FirstUser_of_find db false _ r hr, DB.loadUser, hnone]
    simp

/-- Witness for C8: on the sample database `usera` is in `groupa` and in no
group named `groupb`. -/
theorem membership_asymmetry_witness :
    ((AddUserToGroup sampleDB "usera" "groupa").2 ≠ none
      ∧ (AddUserToGroup sampleDB "usera" "groupa").1 = sampleDB) ∧
    ((RemoveUserFromGroup sampleDB "usera" "groupb").2 = none
      ∧ (RemoveUserFromGroup sampleDB "usera" "groupb").1 = sampleDB) :=
  ⟨(membership_asymmetry sampleDB "usera" "groupa"
      { Id := 1, Username := "usera", Enabled := some true, Name := "User A",
        Email := "mail@mail.com", Hash := sampleHash } (by decide)).1 (by decide),
   (membership_asymmetry sampleDB "usera" "groupb"
      { Id := 1, Username := "usera", Enabled := some true, Name := "User A",
        Email := "mail@mail.com", Hash := sampleHash } (by decide)).2 (by decide)⟩

theorem find_and_of_find (l : List UserRow) (p q : UserRow → Bool) (r : UserRow)
    (hr : l.find? p = some r) (hq : q r = true) :
    l.find? (fun x => p x && q x) = some r := by
  induction l with
  | nil => simp at hr
  | cons x xs ih =>
    by_cases hx : p x = true
    · simp only [List.find?_cons, hx] at hr
      have hxr : x = r := Option.some.inj hr
      subst hxr
      simp [List.find?_cons, hx, hq]
    · have hx' : p x = false := by simpa using hx
      simp only [List.find?_cons, hx'] at hr
      simp [List.find?_cons, hx', ih hr]

theorem Sess_new (db : DB) (ss : List Session) (usr : User) (tok : String)
    (hfresh : ∀ x ∈ ss, x.Id ≠ tok) :
    Sess { db with sessions := ss ++ [newSession usr tok] } tok = (newSession usr tok, none) := by
  have := find_session_append ss (newSession usr tok) hfresh
  simp only [newSession] at this
  simp only [Sess, newSession, this]

theorem Sess_append_of_found (db db2 : DB) (s s2 : Session) (id : String)
    (h : Sess db id = (s, none)) (hs : db2.sessions = db.sessions ++ [s2]) :
    Sess db2 id = (s, none) := by
  unfold Sess at h ⊢
  rw [hs, List.find?_append]
  cases hf : db.sessions.find? (fun x => x.Id == id) with
  | none => simp [hf] at h
  | some y => simpa [hf] using h

theorem memberRows_delete (db : DB) (uid gid : Nat) :
    (db.DeleteUserGroup uid gid).memberRows uid
      = (db.memberRows uid).filter (fun x => decide (x.Id ≠ gid)) := by
  simp only [DB.memberRows, DB.DeleteUserGroup, List.filter_filter]
  apply List.filter_congr
  intro x _
  by_cases h1 : (uid, x.Id) ∈ db.user_groups <;> by_cases h2 : x.Id = gid <;>
    simp [List.mem_filter, h1, h2]

theorem mem_permNames_userGroups (db : DB) (uid : Nat) (n : String) :
    n ∈ permNames (db.userGroups true uid)
      ↔ ∃ x ∈ db.memberRows uid, ∃ q ∈ db.groupPerms x.Id, q.Name = n := by
  simp only [permNames, DB.userGroups, List.mem_flatMap, List.mem_map, DB.loadGroup, if_true]
  constructor
  · rintro ⟨_, ⟨x, hx, rfl⟩, q, hq, rfl⟩
    exact ⟨x, hx, q, hq, rfl⟩
  · rintro ⟨x, hx, q, hq, rfl⟩
    exact ⟨_, ⟨x, hx, rfl⟩, q, hq, rfl⟩

theorem RemoveUserFromGroup_of_member (db : DB) (u g : String) (r : UserRow) (x : GroupRow)
    (hr : db.users.find? (fun r => r.Username == u) = some r)
    (hx : (db.memberRows r.Id).find? (fun x => x.Name == g) = some x) :
    RemoveUserFromGroup db u g = (db.DeleteUserGroup r.Id x.Id, none) := by
  have hfind : (db.userGroups false r.Id).find? (fun v => v.Name == g)
      = some (db.loadGroup false x) := by
    rw [find_userGroups, hx]
    rfl
  simp only [RemoveUserFromGroup, FirstUser_of_find db false _ r hr, DB.loadUser, hfind,
    DB.loadGroup]

/-- C7: let `u` be the enabled user (row `r`) whose password `pw` verifies, let
`x` be the group named `g` that `u` is joined to, and let `p` (non-empty, no
`|`, as all permission names of the groups of `u`) be held by `x` and by no
other group of `u`.  For a token `T` issued by `Auth` before the change: after
`RemoveUserFromGroup u g`, which succeeds, a new `Auth` issues a token whose
session fails `HasPerm p`, while `Sess T` still returns the session it returned
before, which passes `HasPerm p`. -/
theorem session_snapshot (b : Bcrypt) (db : DB) (u pw g p T T2 : String) (r : UserRow)
    (x : GroupRow)
    (hr : db.users.find? (fun r => r.Username == u) = some r)
    (hen : r.Enabled = some true)
    (hpw : b.CompareHashAndPassword r.Hash pw = none)
    (hx : (db.memberRows r.Id).find? (fun x => x.Name == g) = some x)
    (hp : ∃ q ∈ db.groupPerms x.Id, q.Name = p)
    (hother : ∀ y ∈ db.memberRows r.Id, y.Id ≠ x.Id → ∀ q ∈ db.groupPerms y.Id, q.Name ≠ p)
    (hbar : ∀ y ∈ db.memberRows r.Id, ∀ q ∈ db.groupPerms y.Id, barFree q.Name)
    (hne : p ≠ "") (hpb : barFree p)
    (hT : ∀ s ∈ db.sessions, s.Id ≠ T) (hT2 : ∀ s ∈ db.sessions, s.Id ≠ T2) (hTT : T ≠ T2) :
    (Auth b db T u pw).2.2 = none ∧ (Auth b db T u pw).2.1 = T ∧
    (Sess (Auth b db T u pw).1 T).2 = none ∧
    (Sess (Auth b db T u pw).1 T).1.HasPerm p = true ∧
    (RemoveUserFromGroup (Auth b db T u pw).1 u g).2 = none ∧
    (Auth b (RemoveUserFromGroup (Auth b db T u pw).1 u g).1 T2 u pw).2.2 = none ∧
    (Auth b (RemoveUserFromGroup (Auth b db T u pw).1 u g).1 T2 u pw).2.1 = T2 ∧
    (Sess (Auth b (RemoveUserFromGroup (Auth b db T u pw).1 u g).1 T2 u pw).1 T2).2 = none ∧
    (Sess (Auth b (RemoveUserFromGroup (Auth b db T u pw).1 u g).1 T2 u pw).1 T2).1.HasPerm p
      = false ∧
    Sess (Auth b (RemoveUserFromGroup (Auth b db T u pw).1 u g).1 T2 u pw).1 T
      = Sess (Auth b db T u pw).1 T := by
  have hre : db.users.find? (fun r => r.Username == u && r.Enabled == some true) = some r :=
    find_and_of_find db.users _ (fun r => r.Enabled == some true) r hr (by simp [hen])
  -- the first authentication
  have hA1 := Auth_of_verified b db T u pw r hre hpw hT
  have hS1 := Sess_new db db.sessions (db.loadUser true r) T hT
  have hheld : p ∈ permNames (db.loadUser true r).Groups := by
    obtain ⟨q, hq, hqp⟩ := hp
    exact (mem_permNames_userGroups db r.Id p).mpr ⟨x, List.mem_of_find?_eq_some hx, q, hq, hqp⟩
  -- the removal
  have hR := RemoveUserFromGroup_of_member
    { db with sessions := db.sessions ++ [newSession (db.loadUser true r) T] } u g r x hr hx
  -- the second authentication
  have hT2' : ∀ s ∈ db.sessions ++ [newSession (db.loadUser true r) T], s.Id ≠ T2 := by
    intro s hs
    rcases List.mem_append.mp hs with h | h
    · exact hT2 s h
    · rw [List.mem_singleton.mp h]
      exact hTT
  have hA2 := Auth_of_verified b
    (DB.DeleteUserGroup { db with sessions := db.sessions ++ [newSession (db.loadUser true r) T] }
      r.Id x.Id) T2 u pw r hre hpw hT2'
  have hS2 := Sess_new
    (DB.DeleteUserGroup { db with sessions := db.sessions ++ [newSession (db.loadUser true r) T] }
      r.Id x.Id)
    (db.sessions ++ [newSession (db.loadUser true r) T])
    ((DB.DeleteUserGroup
      { db with sessions := db.sessions ++ [newSession (db.loadUser true r) T] }
      r.Id x.Id).loadUser true r) T2 hT2'
  have hnot : p ∉ permNames ((db.DeleteUserGroup r.Id x.Id).userGroups true r.Id) := by
    intro hmem
    obtain ⟨y, hy, q, hq, hqp⟩ := (mem_permNames_userGroups _ r.Id p).mp hmem
    rw [memberRows_delete] at hy
    simp only [List.mem_filter, decide_eq_true_eq] at hy
    exact hother y hy.1 hy.2 q hq hqp
  have hfree : ∀ n ∈ permNames ((db.DeleteUserGroup r.Id x.Id).userGroups true r.Id),
      barFree n := by
    intro n hmem
    obtain ⟨y, hy, q, hq, hqn⟩ := (mem_permNames_userGroups _ r.Id n).mp hmem
    rw [memberRows_delete] at hy
    simp only [List.mem_filter, decide_eq_true_eq] at hy
    exact hqn ▸ hbar y hy.1 q hq
  have hS3 := Sess_append_of_found _
    { DB.DeleteUserGroup
        { db with sessions := db.sessions ++ [newSession (db.loadUser true r) T] } r.Id x.Id with
      sessions := (db.sessions ++ [newSession (db.loadUser true r) T]) ++
        [newSession ((DB.DeleteUserGroup
          { db with sessions := db.sessions ++ [newSession (db.loadUser true r) T] }
          r.Id x.Id).loadUser true r) T2] }
    _ _ T hS1 rfl
  rw [hA1, hR, hA2]
  refine ⟨rfl, rfl, ?_, ?_, rfl, rfl, rfl, ?_, ?_, ?_⟩
  · exact congrArg Prod.snd hS1
  · rw [hS1]
    exact HasPerm_of_held _ T p hheld
  · exact congrArg Prod.snd hS2
  · have key : (newSession ((DB.DeleteUserGroup
        { db with sessions := db.sessions ++ [newSession (db.loadUser true r) T] }
        r.Id x.Id).loadUser true r) T2).HasPerm p = false := by
      rw [Bool.eq_false_iff]
      intro hh
      have hh2 : Session.HasPerm
          { Id := T2, Perms := flattenPerms ((db.DeleteUserGroup r.Id x.Id).userGroups true r.Id),
            Username := r.Username } p = true := hh
      exact hnot (held_of_HasPerm _ _ _ p hfree hne hpb hh2)
    exact (congrArg (fun z => z.1.HasPerm p) hS2).trans key
  · exact hS3.trans hS1.symm

/-- Witness for C7: the scenario of `TestAddRemoveGroup`. -/
theorem session_snapshot_witness :
    (Sess (Auth sampleBcrypt
        (RemoveUserFromGroup (Auth sampleBcrypt twoGroupDB "T1" "usera2" "abc123xyz").1
          "usera2" "groupb2").1 "T2" "usera2" "abc123xyz").1 "T2").1.HasPerm "permb2" = false ∧
    (Sess (Auth sampleBcrypt twoGroupDB "T1" "usera2" "abc123xyz").1 "T1").1.HasPerm "permb2"
      = true ∧
    Sess (Auth sampleBcrypt
        (RemoveUserFromGroup (Auth sampleBcrypt twoGroupDB "T1" "usera2" "abc123xyz").1
          "usera2" "groupb2").1 "T2" "usera2" "abc123xyz").1 "T1"
      = Sess (Auth sampleBcrypt twoGroupDB "T1" "usera2" "abc123xyz").1 "T1" :=
  have h := session_snapshot sampleBcrypt twoGroupDB "usera2" "abc123xyz" "groupb2" "permb2"
    "T1" "T2"
    { Id := 1, Username := "usera2", Enabled := some true, Name := "User A2",
      Email := "mail@mail.com", Hash := sampleHash }
    { Id := 2, Name := "groupb2" }
    (by decide) (by decide) (by decide) (by decide) (by decide) (by decide) (by decide)
    (by decide) (by decide) (by decide) (by decide) (by decide)
  ⟨h.2.2.2.2.2.2.2.2.1, h.2.2.2.1, h.2.2.2.2.2.2.2.2.2⟩

/-! ## Defects -/

/-- C9: `RemovePermFromGroup` compares the permission names with the group name.
On the sample database, where `groupa` holds `perma`, the call for `groupa` and
`perma` returns no error and changes nothing, so the group still holds `perma`;
on the database where `admin` holds `admin` and `read`, the calls for `read` and
for the permission `write`, which the group does not hold, both detach `admin`
and keep `read`. -/
theorem RemovePermFromGroup_compares_group_name :
    RemovePermFromGroup sampleDB "groupa" "perma" = (sampleDB, none) ∧
    (∃ q ∈ sampleDB.groupPerms 1, q.Name = "perma") ∧
    RemovePermFromGroup adminDB "admin" "read"
      = ({ adminDB with group_perms := [(1, 2)] }, none) ∧
    RemovePermFromGroup adminDB "admin" "write"
      = ({ adminDB with group_perms := [(1, 2)] }, none) := by
  decide

/-- C10: on the sample database, which has no user `ghost`, `SetUserPass`
returns no error and inserts a new row with an empty username and the new
hash. -/
theorem SetUserPass_inserts_row :
    SetUserPass sampleBcrypt sampleDB "ghost" "abc123xyz"
      = ({ sampleDB with
            users := sampleDB.users ++
              [{ Id := 3, Username := "", Enabled := none, Name := "", Email := "",
                 Hash := sampleHash }] },
         none) := by
  decide

end auth
